import Mathlib

/-!
Formal model of the batch stock-analysis pipeline of this repository
(`nodes.py`, `tools.py`, `pipeline_stages.py`, `state_io.py`): bounded-concurrency
batch execution with per-item retry, partial-failure isolation, tolerant
structured-output parsing, ranking, and staged checkpointing.

Python strings are modelled as `List Char` (converted at the boundary from Lean
`String`); Python numbers are modelled by `ℚ`, exact rationals standing for
Python ints/floats — every numeric literal the claims exercise (2.5, 0, 5, -1,
3, 7, 2) is exactly representable, so no rounding behaviour is lost.
-/

/-- Left-brace character, by code point. -/
def cLB : Char := Char.ofNat 123

/-- Right-brace character, by code point. -/
def cRB : Char := Char.ofNat 125

/-- Double-quote character, by code point. -/
def cDQ : Char := Char.ofNat 34

/-- Single-quote character, by code point. -/
def cSQ : Char := Char.ofNat 39

/-- Backslash character, by code point. -/
def cBS : Char := Char.ofNat 92

/-- Backtick character, by code point. -/
def cBT : Char := Char.ofNat 96

/-- Python `str.strip()` / regex `\s` whitespace: space, tab, LF, CR, VT, FF. -/
def pyIsSpace (c : Char) : Bool :=
  c == ' ' || c == Char.ofNat 9 || c == Char.ofNat 10 || c == Char.ofNat 13 ||
    c == Char.ofNat 11 || c == Char.ofNat 12

/-- Python `str.strip()` with no arguments: drop leading and trailing whitespace. -/
def listTrim (cs : List Char) : List Char :=
  ((cs.dropWhile pyIsSpace).reverse.dropWhile pyIsSpace).reverse

/-- Whether `pat` occurs as a contiguous substring (Python `pat in s`). -/
def containsSub (pat : List Char) : List Char → Bool
  | [] => pat.isEmpty
  | c :: rest => List.isPrefixOf pat (c :: rest) || containsSub pat rest

/-- Fuelled worker for `replaceAll`. -/
def replaceAllF (pat repl : List Char) : ℕ → List Char → List Char
  | 0, s => s
  | fuel + 1, s =>
    match s with
    | [] => []
    | c :: rest =>
      if !pat.isEmpty && List.isPrefixOf pat s then
        repl ++ replaceAllF pat repl fuel (s.drop pat.length)
      else
        c :: replaceAllF pat repl fuel rest

/-- Python `s.replace(pat, repl)`: replace all occurrences, scanning left to
right without overlap.  (An empty pattern is kept inert; the pipeline only ever
replaces nonempty fence markers.) -/
def replaceAll (pat repl s : List Char) : List Char :=
  replaceAllF pat repl (s.length + 1) s

/-- Digit run to a natural number. -/
def digitsToNat (ds : List Char) : ℕ :=
  ds.foldl (fun n c => n * 10 + (c.toNat - 48)) 0

/-- Python values as produced by `json.loads` / `ast.literal_eval`:
strings, numbers (ℚ for int/float), booleans, `None`, lists and dicts
(association lists in insertion order).  Tuples, sets, bytes and complex
numbers are not modelled: the extractor treats any such parse the same as a
non-dict parse result, so the distinction is invisible to the claims. -/
inductive PyVal where
  | str : String → PyVal
  | num : ℚ → PyVal
  | bool : Bool → PyVal
  | noneV : PyVal
  | list : List PyVal → PyVal
  | dict : List (PyVal × PyVal) → PyVal

/-- Python truthiness (`bool(v)`). -/
def pyTruthy : PyVal → Bool
  | PyVal.str s => !(s == "")
  | PyVal.num q => !(q == 0)
  | PyVal.bool b => b
  | PyVal.noneV => false
  | PyVal.list xs => !xs.isEmpty
  | PyVal.dict kvs => !kvs.isEmpty

/-- Equality of hashable dict keys, with Python's numeric-tower collapsing
(`True == 1`, `1 == 1.0`).  Lists/dicts are unhashable and never equal as keys. -/
def pyKeyEq : PyVal → PyVal → Bool
  | PyVal.str a, PyVal.str b => a == b
  | PyVal.noneV, PyVal.noneV => true
  | PyVal.num a, PyVal.num b => a == b
  | PyVal.num a, PyVal.bool b => a == (if b then (1 : ℚ) else 0)
  | PyVal.bool a, PyVal.num b => (if a then (1 : ℚ) else 0) == b
  | PyVal.bool a, PyVal.bool b => a == b
  | _, _ => false

/-- Whether a value cannot be a dict key (Python `TypeError: unhashable type`). -/
def pyUnhashable : PyVal → Bool
  | PyVal.list _ => true
  | PyVal.dict _ => true
  | _ => false

/-- Dict insertion: update an existing key in place (keeping its position, as a
Python dict does) or append a fresh key at the end. -/
def dictUpsertPy (k v : PyVal) : List (PyVal × PyVal) → List (PyVal × PyVal)
  | [] => [(k, v)]
  | (k1, v1) :: rest =>
    if pyKeyEq k1 k then (k1, v) :: rest else (k1, v1) :: dictUpsertPy k v rest

/-- `d.get(k)` for a string key on a dict built with `dictUpsertPy` (keys are
unique, so the first match is the binding). -/
def pyDictGet (k : String) : List (PyVal × PyVal) → Option PyVal
  | [] => Option.none
  | (kk, v) :: rest => if pyKeyEq kk (PyVal.str k) then some v else pyDictGet k rest

/-- `d.get(k, dflt)` for a string key. -/
def pyDictGetD (kvs : List (PyVal × PyVal)) (k : String) (dflt : PyVal) : PyVal :=
  (pyDictGet k kvs).getD dflt

/-- Rendering of a number the way Python prints it, restricted to what the
pipeline meets: integers print without a denominator; a non-integral rational
prints as `num/den` (a deterministic stand-in for the float repr — the claims
never inspect these bytes beyond determinism and non-emptiness). -/
def renderNum (q : ℚ) : String :=
  (if q < 0 then "-" else "") ++
    (Nat.repr q.num.natAbs ++ if q.den == 1 then "" else "/" ++ Nat.repr q.den)

/-- Comma-join for rendered containers. -/
def commaJoin (xs : List String) : String :=
  String.intercalate ", " xs

/-- Fuelled `repr`-style rendering of a Python value (fuel bounds the nesting
depth; it is always called with ample fuel). -/
def pyReprF : ℕ → PyVal → String
  | 0, _ => "..."
  | fuel + 1, v =>
    match v with
    | PyVal.str s => String.mk (cSQ :: s.data ++ [cSQ])
    | PyVal.num q => renderNum q
    | PyVal.bool b => if b then "True" else "False"
    | PyVal.noneV => "None"
    | PyVal.list xs => "[" ++ commaJoin (xs.map (pyReprF fuel)) ++ "]"
    | PyVal.dict kvs =>
        String.mk [cLB] ++
          commaJoin (kvs.map fun p => pyReprF fuel p.1 ++ ": " ++ pyReprF fuel p.2) ++
          String.mk [cRB]

/-- Python `str(v)`: identity on strings, `repr`-style otherwise.  The fuel
1000 mirrors CPython's default recursion limit: nesting beyond it would have
raised `RecursionError` long before `str` is reached. -/
def pyToStr (v : PyVal) : String :=
  match v with
  | PyVal.str s => s
  | _ => pyReprF 1000 v

/-- Exponent tail of a Python float literal for `float(str)`: the whole rest of
the input must be consumed. -/
def pyFloatExpPart (mant : ℚ) : List Char → Option ℚ
  | [] => some mant
  | c :: rest =>
    if c == 'e' || c == 'E' then
      match rest with
      | [] => Option.none
      | d :: r2 =>
        let (esign, r3) :=
          if d == '-' then (true, r2) else if d == '+' then (false, r2) else (false, rest)
        let (eds, r4) := List.span Char.isDigit r3
        if eds.isEmpty || !r4.isEmpty then Option.none
        else
          let ev := digitsToNat eds
          some (if esign then mant / (10 : ℚ) ^ ev else mant * (10 : ℚ) ^ ev)
    else Option.none

/-- Body of a Python float literal (after sign): `digits[.digits][exp]`,
`.digits[exp]` or `digits.[exp]`; at least one digit overall. -/
def pyFloatBody (s : List Char) : Option ℚ :=
  let (ds, s1) := List.span Char.isDigit s
  match s1 with
  | [] => if ds.isEmpty then Option.none else some ((digitsToNat ds : ℚ))
  | c :: rest =>
    if c == '.' then
      let (fds, s2) := List.span Char.isDigit rest
      if ds.isEmpty && fds.isEmpty then Option.none
      else
        pyFloatExpPart
          ((digitsToNat ds : ℚ) + (digitsToNat fds : ℚ) / (10 : ℚ) ^ fds.length) s2
    else if ds.isEmpty then Option.none
    else pyFloatExpPart ((digitsToNat ds : ℚ)) s1

/-- `float(s)` for a string: strip whitespace, optional sign, then a float
literal consuming the whole remainder.  (`inf`/`nan` and digit underscores are
not representable/modelled and count as failure; no claim exercises them.) -/
def pyFloatOfStr (str0 : String) : Option ℚ :=
  match listTrim str0.data with
  | [] => Option.none
  | c :: rest =>
    let (neg, s1) :=
      if c == '-' then (true, rest)
      else if c == '+' then (false, rest)
      else (false, c :: rest)
    (pyFloatBody s1).map fun q => if neg then -q else q

/-- `float(v)`: numbers pass through, booleans coerce to 1/0, strings are
parsed, everything else is a `TypeError` (`Option.none`). -/
def pyFloat : PyVal → Option ℚ
  | PyVal.num q => some q
  | PyVal.bool b => some (if b then 1 else 0)
  | PyVal.str s => pyFloatOfStr s
  | _ => Option.none

/-- JSON whitespace (space, tab, LF, CR), as `json.loads` skips it. -/
def jsWs (c : Char) : Bool :=
  c == ' ' || c == Char.ofNat 9 || c == Char.ofNat 10 || c == Char.ofNat 13

/-- Value of a hex digit, if any. -/
def hexVal (c : Char) : Option ℕ :=
  if c.isDigit then some (c.toNat - 48)
  else if 97 ≤ c.toNat && c.toNat ≤ 102 then some (c.toNat - 87)
  else if 65 ≤ c.toNat && c.toNat ≤ 70 then some (c.toNat - 55)
  else Option.none

/-- JSON string body after the opening quote: standard escapes, `\uXXXX`
(surrogate halves collapse to a replacement character — unreachable in the
claims), and a hard error on unescaped control characters (strict mode). -/
def jsParseString : ℕ → List Char → List Char → Option (String × List Char)
  | 0, _, _ => Option.none
  | fuel + 1, acc, s =>
    match s with
    | [] => Option.none
    | c :: rest =>
      if c == cDQ then some (String.mk acc.reverse, rest)
      else if c == cBS then
        match rest with
        | [] => Option.none
        | e :: r2 =>
          if e == cDQ then jsParseString fuel (cDQ :: acc) r2
          else if e == cBS then jsParseString fuel (cBS :: acc) r2
          else if e == '/' then jsParseString fuel ('/' :: acc) r2
          else if e == 'b' then jsParseString fuel (Char.ofNat 8 :: acc) r2
          else if e == 'f' then jsParseString fuel (Char.ofNat 12 :: acc) r2
          else if e == 'n' then jsParseString fuel (Char.ofNat 10 :: acc) r2
          else if e == 'r' then jsParseString fuel (Char.ofNat 13 :: acc) r2
          else if e == 't' then jsParseString fuel (Char.ofNat 9 :: acc) r2
          else if e == 'u' then
            match r2 with
            | h1 :: h2 :: h3 :: h4 :: r3 =>
              match hexVal h1, hexVal h2, hexVal h3, hexVal h4 with
              | some a, some b, some c2, some d =>
                jsParseString fuel (Char.ofNat (((a * 16 + b) * 16 + c2) * 16 + d) :: acc) r3
              | _, _, _, _ => Option.none
            | _ => Option.none
          else Option.none
      else if c.toNat < 32 then Option.none
      else jsParseString fuel (c :: acc) rest

/-- Exponent tail of a JSON number. -/
def jsExpPart (mant : ℚ) (s : List Char) : Option (ℚ × List Char) :=
  match s with
  | [] => some (mant, s)
  | c :: rest =>
    if c == 'e' || c == 'E' then
      match rest with
      | [] => Option.none
      | d :: r2 =>
        let (esign, r3) :=
          if d == '-' then (true, r2) else if d == '+' then (false, r2) else (false, rest)
        let (eds, r4) := List.span Char.isDigit r3
        if eds.isEmpty then Option.none
        else
          let ev := digitsToNat eds
          some (if esign then mant / (10 : ℚ) ^ ev else mant * (10 : ℚ) ^ ev, r4)
    else some (mant, s)

/-- Fraction-and-exponent tail of a JSON number. -/
def jsFracPart (intv : ℕ) (s : List Char) : Option (ℚ × List Char) :=
  match s with
  | [] => some ((intv : ℚ), s)
  | c :: rest =>
    if c == '.' then
      let (fds, r1) := List.span Char.isDigit rest
      if fds.isEmpty then Option.none
      else jsExpPart ((intv : ℚ) + (digitsToNat fds : ℚ) / (10 : ℚ) ^ fds.length) r1
    else jsExpPart ((intv : ℚ)) s

/-- A JSON number: optional minus, strict integer part (no leading zeros),
optional fraction and exponent. -/
def jsParseNumber (s : List Char) : Option (ℚ × List Char) :=
  match s with
  | [] => Option.none
  | c :: rest =>
    let (neg, s1) := if c == '-' then (true, rest) else (false, c :: rest)
    match s1 with
    | [] => Option.none
    | d :: _ =>
      if d.isDigit then
        let (ds, s2) := List.span Char.isDigit s1
        if 1 < ds.length && ds.head? == some '0' then Option.none
        else (jsFracPart (digitsToNat ds) s2).map fun p =>
          (if neg then -p.1 else p.1, p.2)
      else Option.none

mutual

/-- A JSON value with surrounding-whitespace skipping (`json.loads` grammar). -/
def jsParseVal : ℕ → List Char → Option (PyVal × List Char)
  | 0, _ => Option.none
  | fuel + 1, s0 =>
    let s := s0.dropWhile jsWs
    match s with
    | [] => Option.none
    | c :: rest =>
      if c == cDQ then (jsParseString fuel [] rest).map fun p => (PyVal.str p.1, p.2)
      else if c == cLB then jsObjStart fuel rest
      else if c == '[' then jsArrStart fuel rest
      else if c == 't' then
        if List.isPrefixOf ['r', 'u', 'e'] rest then some (PyVal.bool true, rest.drop 3)
        else Option.none
      else if c == 'f' then
        if List.isPrefixOf ['a', 'l', 's', 'e'] rest then some (PyVal.bool false, rest.drop 4)
        else Option.none
      else if c == 'n' then
        if List.isPrefixOf ['u', 'l', 'l'] rest then some (PyVal.noneV, rest.drop 3)
        else Option.none
      else (jsParseNumber s).map fun p => (PyVal.num p.1, p.2)

/-- Object body just after `{`: empty object or the first key. -/
def jsObjStart : ℕ → List Char → Option (PyVal × List Char)
  | 0, _ => Option.none
  | fuel + 1, s0 =>
    let s := s0.dropWhile jsWs
    match s with
    | [] => Option.none
    | c :: rest =>
      if c == cRB then some (PyVal.dict [], rest)
      else jsObjPair fuel [] s

/-- One `"key": value` pair then `,` (next pair) or `}` (end).  Duplicate keys
overwrite in place, as in a Python dict. -/
def jsObjPair : ℕ → List (PyVal × PyVal) → List Char → Option (PyVal × List Char)
  | 0, _, _ => Option.none
  | fuel + 1, acc, s0 =>
    let s := s0.dropWhile jsWs
    match s with
    | [] => Option.none
    | c :: rest =>
      if c == cDQ then
        match jsParseString fuel [] rest with
        | Option.none => Option.none
        | some (key, r1) =>
          match r1.dropWhile jsWs with
          | [] => Option.none
          | d :: r2 =>
            if d == ':' then
              match jsParseVal fuel r2 with
              | Option.none => Option.none
              | some (v, r3) =>
                let acc2 := dictUpsertPy (PyVal.str key) v acc
                match r3.dropWhile jsWs with
                | [] => Option.none
                | e :: r4 =>
                  if e == ',' then jsObjPair fuel acc2 r4
                  else if e == cRB then some (PyVal.dict acc2, r4)
                  else Option.none
            else Option.none
      else Option.none

/-- Array body just after `[`: empty array or the first element. -/
def jsArrStart : ℕ → List Char → Option (PyVal × List Char)
  | 0, _ => Option.none
  | fuel + 1, s0 =>
    let s := s0.dropWhile jsWs
    match s with
    | [] => Option.none
    | c :: rest =>
      if c == ']' then some (PyVal.list [], rest)
      else jsArrElem fuel [] s

/-- One array element then `,` (next element) or `]` (end). -/
def jsArrElem : ℕ → List PyVal → List Char → Option (PyVal × List Char)
  | 0, _, _ => Option.none
  | fuel + 1, acc, s =>
    match jsParseVal fuel s with
    | Option.none => Option.none
    | some (v, r1) =>
      match r1.dropWhile jsWs with
      | [] => Option.none
      | e :: r2 =>
        if e == ',' then jsArrElem fuel (v :: acc) r2
        else if e == ']' then some (PyVal.list (v :: acc).reverse, r2)
        else Option.none

end

/-- `json.loads(s)`: parse one value and require only whitespace after it.
The fuel is generous; it bounds parser work, never the accepted language on
inputs of this length. -/
def jsonLoads (s : List Char) : Option PyVal :=
  match jsParseVal (4 * s.length + 16) s with
  | some (v, rest) => if (rest.dropWhile jsWs).isEmpty then some v else Option.none
  | Option.none => Option.none

/-- Python string-literal body after the opening quote `q` (single or double):
Python escapes; an unknown escape keeps the backslash (as CPython does, with a
warning); a raw newline inside the literal is a syntax error.  Octal, `\x`,
`\u`, `\U` and `\N` escapes are unmodelled corners (parse failure  — every
failure path ends in the same fallback record, so the claims cannot see the
difference). -/
def leParseString (q : Char) : ℕ → List Char → List Char → Option (String × List Char)
  | 0, _, _ => Option.none
  | fuel + 1, acc, s =>
    match s with
    | [] => Option.none
    | c :: rest =>
      if c == q then some (String.mk acc.reverse, rest)
      else if c == cBS then
        match rest with
        | [] => Option.none
        | e :: r2 =>
          if e == cBS then leParseString q fuel (cBS :: acc) r2
          else if e == cSQ then leParseString q fuel (cSQ :: acc) r2
          else if e == cDQ then leParseString q fuel (cDQ :: acc) r2
          else if e == 'n' then leParseString q fuel (Char.ofNat 10 :: acc) r2
          else if e == 't' then leParseString q fuel (Char.ofNat 9 :: acc) r2
          else if e == 'r' then leParseString q fuel (Char.ofNat 13 :: acc) r2
          else if e == 'b' then leParseString q fuel (Char.ofNat 8 :: acc) r2
          else if e == 'f' then leParseString q fuel (Char.ofNat 12 :: acc) r2
          else if e == 'a' then leParseString q fuel (Char.ofNat 7 :: acc) r2
          else if e == 'v' then leParseString q fuel (Char.ofNat 11 :: acc) r2
          else if e == 'x' || e == 'u' || e == 'U' || e == 'N' || e.isDigit then Option.none
          else leParseString q fuel (e :: cBS :: acc) r2
      else if c == Char.ofNat 10 then Option.none
      else leParseString q fuel (c :: acc) rest

/-- A Python numeric literal (after an optional sign handled by the caller):
ints (leading zeros only as all-zero), floats `d.d`, `.d`, `d.`, exponents.
Hex/octal/binary ints, underscores and `j` suffixes are unmodelled corners. -/
def leNumber (s : List Char) : Option (ℚ × List Char) :=
  let (ds, s1) := List.span Char.isDigit s
  match s1 with
  | [] =>
    if ds.isEmpty then Option.none
    else if 1 < ds.length && ds.head? == some '0' && !(ds.all (fun c => c == '0')) then
      Option.none
    else some ((digitsToNat ds : ℚ), s1)
  | c :: rest =>
    if c == '.' then
      let (fds, s2) := List.span Char.isDigit rest
      if ds.isEmpty && fds.isEmpty then Option.none
      else
        (jsExpPart ((digitsToNat ds : ℚ) + (digitsToNat fds : ℚ) / (10 : ℚ) ^ fds.length) s2)
    else if c == 'e' || c == 'E' then
      if ds.isEmpty then Option.none else jsExpPart ((digitsToNat ds : ℚ)) s1
    else if ds.isEmpty then Option.none
    else if 1 < ds.length && ds.head? == some '0' && !(ds.all (fun c => c == '0')) then
      Option.none
    else some ((digitsToNat ds : ℚ), s1)

mutual

/-- One Python literal for `ast.literal_eval`: strings, signed numbers,
`True`/`False`/`None`, lists and dicts.  Dicts are kept as raw key/value pairs
at this stage (CPython parses the whole AST before evaluating it; hashability
is checked only during conversion).  Tuples, sets and string concatenation are
unmodelled corners that fall to parse failure. -/
def leParseVal : ℕ → List Char → Option (PyVal × List Char)
  | 0, _ => Option.none
  | fuel + 1, s0 =>
    let s := s0.dropWhile pyIsSpace
    match s with
    | [] => Option.none
    | c :: rest =>
      if c == cDQ then (leParseString cDQ fuel [] rest).map fun p => (PyVal.str p.1, p.2)
      else if c == cSQ then (leParseString cSQ fuel [] rest).map fun p => (PyVal.str p.1, p.2)
      else if c == cLB then leDictStart fuel rest
      else if c == '[' then leListStart fuel rest
      else if c == 'T' then
        if List.isPrefixOf ['r', 'u', 'e'] rest then some (PyVal.bool true, rest.drop 3)
        else Option.none
      else if c == 'F' then
        if List.isPrefixOf ['a', 'l', 's', 'e'] rest then some (PyVal.bool false, rest.drop 4)
        else Option.none
      else if c == 'N' then
        if List.isPrefixOf ['o', 'n', 'e'] rest then some (PyVal.noneV, rest.drop 3)
        else Option.none
      else if c == '-' then (leNumber (rest.dropWhile pyIsSpace)).map fun p => (PyVal.num (-p.1), p.2)
      else if c == '+' then (leNumber (rest.dropWhile pyIsSpace)).map fun p => (PyVal.num p.1, p.2)
      else (leNumber s).map fun p => (PyVal.num p.1, p.2)

/-- List body just after `[`: empty list or elements (trailing comma allowed). -/
def leListStart : ℕ → List Char → Option (PyVal × List Char)
  | 0, _ => Option.none
  | fuel + 1, s0 =>
    let s := s0.dropWhile pyIsSpace
    match s with
    | [] => Option.none
    | c :: rest =>
      if c == ']' then some (PyVal.list [], rest)
      else leListElem fuel [] s

/-- One list element then `,` or `]`. -/
def leListElem : ℕ → List PyVal → List Char → Option (PyVal × List Char)
  | 0, _, _ => Option.none
  | fuel + 1, acc, s =>
    match leParseVal fuel s with
    | Option.none => Option.none
    | some (v, r1) =>
      match r1.dropWhile pyIsSpace with
      | [] => Option.none
      | e :: r2 =>
        if e == ',' then
          match r2.dropWhile pyIsSpace with
          | d :: r3 =>
            if d == ']' then some (PyVal.list (v :: acc).reverse, r3)
            else leListElem fuel (v :: acc) r2
          | [] => Option.none
        else if e == ']' then some (PyVal.list (v :: acc).reverse, r2)
        else Option.none

/-- Dict body just after `{`: empty dict or key/value pairs.  A `{` block whose
first element is not followed by `:` would be a set display — an unmodelled
corner falling to parse failure. -/
def leDictStart : ℕ → List Char → Option (PyVal × List Char)
  | 0, _ => Option.none
  | fuel + 1, s0 =>
    let s := s0.dropWhile pyIsSpace
    match s with
    | [] => Option.none
    | c :: rest =>
      if c == cRB then some (PyVal.dict [], rest)
      else leDictPair fuel [] s

/-- One `key: value` pair then `,` or `}` (trailing comma allowed).  Pairs are
accumulated raw, in source order. -/
def leDictPair : ℕ → List (PyVal × PyVal) → List Char → Option (PyVal × List Char)
  | 0, _, _ => Option.none
  | fuel + 1, acc, s =>
    match leParseVal fuel s with
    | Option.none => Option.none
    | some (k, r1) =>
      match r1.dropWhile pyIsSpace with
      | [] => Option.none
      | e :: r2 =>
        if e == ':' then
          match leParseVal fuel r2 with
          | Option.none => Option.none
          | some (v, r3) =>
            match r3.dropWhile pyIsSpace with
            | [] => Option.none
            | d :: r4 =>
              if d == ',' then
                match r4.dropWhile pyIsSpace with
                | f :: r5 =>
                  if f == cRB then some (PyVal.dict ((k, v) :: acc).reverse, r5)
                  else leDictPair fuel ((k, v) :: acc) r4
                | [] => Option.none
              else if d == cRB then some (PyVal.dict ((k, v) :: acc).reverse, r4)
              else Option.none
        else Option.none

end

/-- Outcome of `ast.literal_eval` as the extractor sees it: a value, a parse
failure (`ValueError`/`SyntaxError`, which the extractor catches), or an
uncaught exception (`TypeError` from an unhashable dict key). -/
inductive LitOutcome where
  | val : PyVal → LitOutcome
  | litFail : LitOutcome
  | litRaise : String → LitOutcome

/-- The `TypeError` message CPython raises for an unhashable dict key. -/
def unhashMsg (k : PyVal) : String :=
  "unhashable type: " ++ String.mk (cSQ :: (match k with
    | PyVal.list _ => "list".data
    | PyVal.dict _ => "dict".data
    | _ => "object".data) ++ [cSQ])

mutual

/-- AST-to-value conversion of `ast.literal_eval` (CPython's `_convert`):
containers are rebuilt bottom-up; building a dict hashes each key, raising
`TypeError` on unhashable ones. -/
def litConvert : ℕ → PyVal → Except String PyVal
  | 0, v => Except.ok v
  | fuel + 1, v =>
    match v with
    | PyVal.list xs => (litConvertList fuel xs).map PyVal.list
    | PyVal.dict kvs => litConvertDict fuel kvs []
    | atom => Except.ok atom

/-- Convert the elements of a list literal in order. -/
def litConvertList : ℕ → List PyVal → Except String (List PyVal)
  | 0, xs => Except.ok xs
  | _, [] => Except.ok []
  | fuel + 1, x :: xs =>
    match litConvert fuel x with
    | Except.error m => Except.error m
    | Except.ok x2 =>
      match litConvertList fuel xs with
      | Except.error m => Except.error m
      | Except.ok xs2 => Except.ok (x2 :: xs2)

/-- Convert dict pairs in order, building the dict with Python insertion
semantics and raising on the first unhashable key. -/
def litConvertDict : ℕ → List (PyVal × PyVal) → List (PyVal × PyVal) →
    Except String PyVal
  | 0, _, acc => Except.ok (PyVal.dict acc)
  | _, [], acc => Except.ok (PyVal.dict acc)
  | fuel + 1, (k, v) :: rest, acc =>
    match litConvert fuel k with
    | Except.error m => Except.error m
    | Except.ok k2 =>
      if pyUnhashable k2 then Except.error (unhashMsg k2)
      else
        match litConvert fuel v with
        | Except.error m => Except.error m
        | Except.ok v2 => litConvertDict fuel rest (dictUpsertPy k2 v2 acc)

end

/-- `ast.literal_eval(s)`: parse the whole string as one literal (trailing
non-whitespace is a syntax error), then convert it. -/
def literalEval (s : List Char) : LitOutcome :=
  match leParseVal (4 * s.length + 16) s with
  | Option.none => LitOutcome.litFail
  | some (t, rest) =>
    if (rest.dropWhile pyIsSpace).isEmpty then
      match litConvert (4 * s.length + 16) t with
      | Except.ok v => LitOutcome.val v
      | Except.error m => LitOutcome.litRaise m
    else LitOutcome.litFail

/-- Drop characters up to (and keeping) the first left brace;
`Option.none` when there is none. -/
def dropToBrace : List Char → Option (List Char)
  | [] => Option.none
  | c :: rest => if c == cLB then some (c :: rest) else dropToBrace rest

/-- Naive brace-depth scan of `find_json_block`: accumulate characters,
returning the slice at which the depth first returns to zero (string contents
are not treated specially, exactly as in the source). -/
def scanBal : ℕ → List Char → List Char → Option (List Char)
  | _, _, [] => Option.none
  | depth, acc, c :: rest =>
    if c == cLB then scanBal (depth + 1) (c :: acc) rest
    else if c == cRB then
      if depth ≤ 1 then some (c :: acc).reverse
      else scanBal (depth - 1) (c :: acc) rest
    else scanBal depth (c :: acc) rest

/-- `find_json_block(s)`: the first balanced `{…}` block; the whole input when
there is no `{`; the tail from the first `{` when braces never balance. -/
def findJsonBlock (s : List Char) : List Char :=
  match dropToBrace s with
  | Option.none => s
  | some t =>
    match scanBal 0 [] t with
    | some blk => blk
    | Option.none => t

/-- Three backticks, the code-fence marker. -/
def fence3 : List Char := [cBT, cBT, cBT]

/-- The marker with its `json` tag. -/
def fenceJson : List Char := fence3 ++ ("json".data)

/-- Fuelled worker for the `re.sub(r"'([^']*)'(\s*[:,\]])", r'"\1"\2', s)`
repair pass: at each position, a single-quoted run followed by optional
whitespace and one of `:`, `,`, `]` is rewritten with double quotes; otherwise
the scan advances one character (exactly `re.sub`'s left-to-right,
non-overlapping behaviour — no shorter match of `[^']*` can succeed, since
`\s` and the punctuation class are disjoint). -/
def regexRepairF : ℕ → List Char → List Char
  | 0, s => s
  | fuel + 1, s =>
    match s with
    | [] => []
    | c :: rest =>
      if c == cSQ then
        let content := rest.takeWhile (fun d => d != cSQ)
        match rest.drop content.length with
        | _ :: afterQ =>
          let ws := afterQ.takeWhile pyIsSpace
          match afterQ.drop ws.length with
          | p :: tail2 =>
            if p == ':' || p == ',' || p == ']' then
              cDQ :: content ++ cDQ :: ws ++ p :: regexRepairF fuel tail2
            else c :: regexRepairF fuel rest
          | [] => c :: regexRepairF fuel rest
        | [] => c :: regexRepairF fuel rest
      else c :: regexRepairF fuel rest

/-- The single-quote repair substitution. -/
def regexRepair (s : List Char) : List Char :=
  regexRepairF (s.length + 1) s

/-- The three-stage parse cascade of `_parse_llm_output` on the (nonempty,
stripped) text: brace-block extraction with fence stripping, strict JSON,
JSON after quote repair, then Python-literal evaluation of the original
block. -/
def parsedOutcome (t : List Char) : LitOutcome :=
  let block0 := findJsonBlock t
  let block :=
    if containsSub fence3 block0 then
      findJsonBlock (replaceAll fence3 [] (replaceAll fenceJson [] block0))
    else block0
  match jsonLoads block with
  | some v => LitOutcome.val v
  | Option.none =>
    match jsonLoads (regexRepair block) with
    | some v => LitOutcome.val v
    | Option.none => literalEval block

/-- An analysis record, the value shape `_parse_llm_output` returns
(`{date, ticker, predicted_change_pct, reason}`); every construction site in
the source populates exactly these four keys. -/
structure AnalysisRecord where
  date : String
  ticker : String
  predicted_change_pct : ℚ
  reason : String
  deriving DecidableEq

/-- `parsed.get("reason", "") or ""` — Python's falsy-coalescing. -/
def pyOrBlank (v : PyVal) : PyVal :=
  if pyTruthy v then v else PyVal.str ""

/-- The `predicted_change_pct` field extraction:
`float(parsed.get("predicted_change_pct", 0))` with 0.0 on
`TypeError`/`ValueError`. -/
def pctOf (kvs : List (PyVal × PyVal)) : ℚ :=
  (pyFloat (pyDictGetD kvs "predicted_change_pct" (PyVal.num 0))).getD 0

/-- The `reason` field extraction:
`str(parsed.get("reason", "") or "").strip() or "No reason provided."`. -/
def reasonOf (kvs : List (PyVal × PyVal)) : String :=
  let r := String.mk (listTrim (pyToStr (pyOrBlank (pyDictGetD kvs "reason" (PyVal.str "")))).data)
  if r == "" then "No reason provided." else r

/-- `_parse_llm_output(text, ticker, today)` on string input (the list/dict
response shapes are flattened upstream by `_extract_text_from_llm_response`;
on a plain string that normalisation is `strip()`, applied here).
`Except.error` models an exception escaping the function — the
`except (ValueError, SyntaxError)` around `ast.literal_eval` does not catch
the `TypeError` an unhashable dict key raises. -/
def parseLLMOutput (text ticker today : String) : Except String AnalysisRecord :=
  let t := listTrim text.data
  if t.isEmpty then
    Except.ok ⟨today, ticker, 0, "Could not parse LLM output (empty)."⟩
  else
    match parsedOutcome t with
    | LitOutcome.val (PyVal.dict kvs) => Except.ok ⟨today, ticker, pctOf kvs, reasonOf kvs⟩
    | LitOutcome.val _ => Except.ok ⟨today, ticker, 0, "Could not parse LLM output."⟩
    | LitOutcome.litFail => Except.ok ⟨today, ticker, 0, "Could not parse LLM output."⟩
    | LitOutcome.litRaise m => Except.error m

instance {ε α : Type} [DecidableEq ε] [DecidableEq α] : DecidableEq (Except ε α) :=
  fun a b =>
    match a, b with
    | Except.ok x, Except.ok y => decidable_of_iff (x = y) (by simp)
    | Except.error x, Except.error y => decidable_of_iff (x = y) (by simp)
    | Except.ok _, Except.error _ => isFalse (by simp)
    | Except.error _, Except.ok _ => isFalse (by simp)

/-- Stable descending insertion: the new element goes after every element whose
key is at least as large (so equal keys keep arrival order, as Python's stable
sort does). -/
def insertDesc {α : Type} (f : α → ℚ) (x : α) : List α → List α
  | [] => [x]
  | y :: ys => if f y < f x then x :: y :: ys else y :: insertDesc f x ys

/-- Stable descending sort by key `f`, processing the input left to right
(the behaviour of `list.sort(key=…, reverse=True)`). -/
def sortDescBy {α : Type} (f : α → ℚ) (l : List α) : List α :=
  l.foldl (fun acc x => insertDesc f x acc) []

/-- `TOP_N` from `nodes.py`. -/
def TOP_N : ℕ := 5

/-- `CONCURRENCY_LIMIT` from `nodes.py`. -/
def CONCURRENCY_LIMIT : ℕ := 5

/-- `MAX_RETRIES` from `nodes.py`. -/
def MAX_RETRIES : ℕ := 3

/-- The pure core of `ranking_node`: keep records with positive
`predicted_change_pct` (`(r.get(...) or 0) > 0` — the `or 0` is the identity
on the numeric field of an `AnalysisRecord`), stable-sort descending by that
field, truncate to `TOP_N`. -/
def rankingList (rs : List AnalysisRecord) : List AnalysisRecord :=
  (sortDescBy AnalysisRecord.predicted_change_pct
      (rs.filter fun r => decide (0 < r.predicted_change_pct))).take TOP_N

/-- The pipeline state fields `ranking_node` touches (`AgentState`). -/
structure AgentState where
  tickers : List String
  analysis_results : List AnalysisRecord
  ranked_results : List AnalysisRecord

/-- The partial state update `ranking_node` returns: a dict with the single
key `ranked_results`. -/
structure RankingUpdate where
  ranked_results : List AnalysisRecord

/-- `ranking_node(state)`: build the ranked list from a fresh filtered copy of
`analysis_results` and return it as a one-key update. -/
def ranking_node (s : AgentState) : RankingUpdate :=
  ⟨rankingList s.analysis_results⟩

/-- LangGraph's merge of a node's returned update into the state: only the
returned keys change. -/
def applyRankingUpdate (s : AgentState) (u : RankingUpdate) : AgentState :=
  { s with ranked_results := u.ranked_results }

/-- The market-data sub-record (`fetch_stock_data`'s returned dict) as the
routing logic sees it: the identifier and the optional `"error"` value.  The
numeric payload (`prices`, `info`) is never consulted by any claim and is
omitted. -/
structure PricesRec where
  ticker : String
  error : Option String
  deriving DecidableEq

/-- The truthiness test `isinstance(prices, dict) and prices.get("error")`
used by `_format_price_summary` and `analyst_node.analyze_one`: an `"error"`
key whose string value is nonempty. -/
def hasErrorMarker (p : PricesRec) : Bool :=
  match p.error with
  | some m => !(m == "")
  | Option.none => false

/-- The context sub-result of `search_news_and_macro` (`macroTexts` models the
source key `"macro"`). -/
structure NewsMacro where
  news : List String
  macroTexts : List String
  deriving DecidableEq

/-- One identifier's `GatheredRecord` (`{prices, news, macro}`). -/
structure Gathered where
  prices : PricesRec
  news : List String
  macroTexts : List String
  deriving DecidableEq

/-- `_fetch_one_ticker_sync(ticker)`.  `priceO` is the outcome of
`fetch_stock_data.invoke` (a returned dict or a raised exception's string
form); `newsO` that of `search_news_and_macro`.  Both calls sit inside
`try/except Exception`, so the function itself is total: a price failure
becomes `{"ticker": t, "error": str(e)}`, a context failure becomes
single-element `"Error: …"` lists. -/
def fetchOneTickerSync (priceO : String → Except String PricesRec)
    (newsO : String → Except String NewsMacro) (t : String) : Gathered :=
  let prices :=
    match priceO t with
    | Except.ok pr => pr
    | Except.error e => { ticker := t, error := some e }
  match newsO t with
  | Except.ok nm => { prices := prices, news := nm.news, macroTexts := nm.macroTexts }
  | Except.error e =>
      { prices := prices, news := ["Error: " ++ e], macroTexts := ["Error: " ++ e] }

/-- Dict upsert for string-keyed association lists (Python dict semantics:
existing keys update in place, new keys append). -/
def dictUpsert {β : Type} (k : String) (v : β) : List (String × β) → List (String × β)
  | [] => [(k, v)]
  | (k1, v1) :: rest =>
    if k1 == k then (k1, v) :: rest else (k1, v1) :: dictUpsert k v rest

/-- Build a dict from pairs in order. -/
def dictOfPairs {β : Type} (ps : List (String × β)) : List (String × β) :=
  ps.foldl (fun d q => dictUpsert q.1 q.2 d) []

/-- Lookup in a string-keyed dict. -/
def dictLookup {β : Type} (k : String) : List (String × β) → Option β
  | [] => Option.none
  | (k1, v) :: rest => if k1 == k then some v else dictLookup k rest

/-- `gather_data_node` at the per-item-fetch granularity:
`asyncio.gather` returns `(ticker, data)` pairs in submission order and the
aggregation writes them into `gathered_data` keyed by ticker.
`_fetch_one_ticker_sync` is total (both sub-fetches are guarded), so the
`except`/`return_exceptions` skip paths of the runner are not exercised at
this granularity — `gatherRunner` models the runner with a faultable unit. -/
def gatherDataNode (tickers : List String) (priceO : String → Except String PricesRec)
    (newsO : String → Except String NewsMacro) : List (String × Gathered) :=
  dictOfPairs (tickers.map fun t => (t, fetchOneTickerSync priceO newsO t))

/-- The gather-stage batch runner over an arbitrary faultable unit of work
(`fetch_one` returning `(ticker, None)` on an exception, the aggregation then
dropping `None`): a faulted item is absent from the result dict and no
exception escapes (the function is total). -/
def gatherRunner (tickers : List String)
    (unit : String → Except String Gathered) : List (String × Gathered) :=
  dictOfPairs (tickers.filterMap fun t =>
    match unit t with
    | Except.ok d => some (t, d)
    | Except.error _ => Option.none)

/-- `analyst_node.analyze_one(ticker, data)`: skip (`None`) when the prices
sub-record carries a truthy error marker; otherwise run the unit of work.
`anO` is the outcome of `run_in_executor(_analyze_one_ticker_sync, …)` — on
success a `(predicted_change_pct, reason)` pair (every return path of that
function fills `ticker`/`date` from its arguments), on an escaped exception
the `except` branch builds a fallback record with reason `"Error: …"` (it does
NOT return `None`). -/
def analyzeOne (anO : String → Except String (ℚ × String)) (today t : String)
    (d : Gathered) : Option AnalysisRecord :=
  if hasErrorMarker d.prices then Option.none
  else
    match anO t with
    | Except.ok pr => some ⟨today, t, pr.1, pr.2⟩
    | Except.error e => some ⟨today, t, 0, "Error: " ++ e⟩

/-- The fan-out/fan-in of `analyst_node` over the gathered dict: results in
submission order, `None` (skips) dropped. -/
def analystNode (gathered : List (String × Gathered))
    (anO : String → Except String (ℚ × String)) (today : String) : List AnalysisRecord :=
  gathered.filterMap fun p => analyzeOne anO today p.1 p.2

/-- The environment-style configuration surface the claims consult. -/
structure Env where
  deepseekKey : Option String
  tavilyKey : Option String

/-- The `ValueError` message `analyst_node` raises for a missing generation
key. -/
def deepseekMissingMsg : String :=
  "DEEPSEEK_API_KEY not set in environment. Set it in your .env file or " ++
    "export it as an environment variable. Get your API key from " ++
    "https://platform.deepseek.com/"

/-- The diagnostic `search_news_and_macro` embeds when the search key is
missing. -/
def tavilyErrMsg : String :=
  "Error: TAVILY_API_KEY not set in environment"

/-- `search_news_and_macro(ticker, include_macro)` (`tools.py`): a missing
`TAVILY_API_KEY` is NOT raised — the function returns single-element
error-marker lists and the run continues.  With the key present the Tavily
interaction is the external collaborator `oracle`. -/
def searchNewsAndMacro (env : Env) (oracle : String → Bool → NewsMacro)
    (ticker : String) (includeMacro : Bool) : NewsMacro :=
  match env.tavilyKey with
  | Option.none => { news := [tavilyErrMsg], macroTexts := [tavilyErrMsg] }
  | some _ => oracle ticker includeMacro

/-- `analyst_node` with its entry checks, in source order: empty gathered data
returns an empty result list; then a missing `DEEPSEEK_API_KEY` raises
(`Except.error`) before any per-item work; otherwise the batch runs. -/
def analystNodeRun (env : Env) (gathered : List (String × Gathered))
    (anO : String → Except String (ℚ × String)) (today : String) :
    Except String (List AnalysisRecord) :=
  if gathered.isEmpty then Except.ok []
  else
    match env.deepseekKey with
    | Option.none => Except.error deepseekMissingMsg
    | some _ => Except.ok (analystNode gathered anO today)

/-- Exception classes relevant to the retry policy. -/
inductive PyExcKind where
  | connectionError
  | timeoutError
  | osError
  | otherError
  deriving DecidableEq

/-- A raised Python exception: class and message. -/
structure PyExc where
  kind : PyExcKind
  msg : String
  deriving DecidableEq

/-- `retry_if_exception_type((ConnectionError, TimeoutError, OSError))`. -/
def isRetryableExc (e : PyExc) : Bool :=
  !(e.kind = PyExcKind.otherError)

/-- Outcome of one attempt of the wrapped unit of work. -/
inductive Attempt (α : Type) where
  | ok : α → Attempt α
  | raise : PyExc → Attempt α
  deriving DecidableEq

/-- `wait_exponential(multiplier=1, min=2, max=10)` after failed attempt `n`
(tenacity evaluates the wait before the attempt counter advances, so
`retry_state.attempt_number = n` and the exponent is `attempt_number - 1`):
`max(min, min(multiplier * 2 ** (n - 1), max))`. -/
def waitExpo (n : ℕ) : ℚ :=
  max 2 (min ((1 : ℚ) * 2 ^ (n - 1)) 10)

/-- Trace of one decorated call: attempts consumed, waits slept between them,
final outcome (an `ok` value or, with `reraise=True`, the re-raised last
exception). -/
structure RetryOutcome (α : Type) where
  attemptsMade : ℕ
  waits : List ℚ
  result : Attempt α
  deriving DecidableEq

/-- Tenacity's retry loop for
`@retry(stop=stop_after_attempt(maxAtt), wait=wait_exponential(1, min=2, max=10),
retry=retry_if_exception_type(...), reraise=True)`:
attempt `n`; return on success; re-raise a non-retryable fault at once;
re-raise the last fault when the attempt ceiling is reached; otherwise sleep
`waitExpo n` and try again.  The fuel equals the attempt ceiling, which the
loop can never exceed. -/
def retryGo {α : Type} (action : ℕ → Attempt α) (maxAtt : ℕ) :
    ℕ → ℕ → List ℚ → RetryOutcome α
  | 0, n, ws => ⟨n, ws.reverse, action n⟩
  | fuel + 1, n, ws =>
    match action n with
    | Attempt.ok a => ⟨n, ws.reverse, Attempt.ok a⟩
    | Attempt.raise e =>
      if !isRetryableExc e then ⟨n, ws.reverse, Attempt.raise e⟩
      else if maxAtt ≤ n then ⟨n, ws.reverse, Attempt.raise e⟩
      else retryGo action maxAtt fuel (n + 1) (waitExpo n :: ws)

/-- One call through the retry decorator with the source's parameters
(`MAX_RETRIES = 3` attempts). -/
def retryCall {α : Type} (action : ℕ → Attempt α) : RetryOutcome α :=
  retryGo action MAX_RETRIES MAX_RETRIES 1 []

/-- Lifecycle of one per-item task of the gather batch: not yet started,
holding a semaphore permit while its fetch runs, finished. -/
inductive TaskPhase where
  | pending
  | inflight
  | done
  deriving DecidableEq

/-- Whether a task currently holds a permit. -/
def isInflight : TaskPhase → Bool
  | TaskPhase.inflight => true
  | _ => false

/-- Number of simultaneously in-flight fetches. -/
def inflightCount (ts : List TaskPhase) : ℕ :=
  ts.countP isInflight

/-- Interleaving semantics of `gather_data_node`'s task set under
`asyncio.Semaphore(CONCURRENCY_LIMIT)`: a pending task may enter its
`async with sem` block only while fewer than `CONCURRENCY_LIMIT` permits are
held; a running task may finish (releasing its permit).  No other transition
touches a task. -/
inductive GatherStep : List TaskPhase → List TaskPhase → Prop
  | start (l r : List TaskPhase) :
      inflightCount (l ++ TaskPhase.pending :: r) < CONCURRENCY_LIMIT →
      GatherStep (l ++ TaskPhase.pending :: r) (l ++ TaskPhase.inflight :: r)
  | finish (l r : List TaskPhase) :
      GatherStep (l ++ TaskPhase.inflight :: r) (l ++ TaskPhase.done :: r)

/-- Reachability from an initial task list. -/
inductive GatherReach (init : List TaskPhase) : List TaskPhase → Prop
  | refl : GatherReach init init
  | step {s s2 : List TaskPhase} :
      GatherReach init s → GatherStep s s2 → GatherReach init s2

/-- The initial state of a gather batch: one pending task per ticker. -/
def initTasks (tickers : List String) : List TaskPhase :=
  tickers.map fun _ => TaskPhase.pending

/-- The ranking key of one loaded checkpoint record, as
`(r.get("predicted_change_pct") or 0) > 0` and the sort key evaluate it:
`None`/falsy values coalesce to 0, numbers and booleans are ordered against 0,
any other truthy value (or a non-dict record) raises (`Option.none`). -/
def pyPctKey : PyVal → Option ℚ
  | PyVal.dict kvs =>
    let w := pyDictGetD kvs "predicted_change_pct" (PyVal.num 0)
    if !pyTruthy w then some 0
    else
      match w with
      | PyVal.num q => some q
      | PyVal.bool b => some (if b then 1 else 0)
      | _ => Option.none
  | _ => Option.none

/-- Resolve the ranking key of every loaded record (the filter comprehension
evaluates it for each element before any is selected). -/
def pyKeysResolve : List PyVal → Option (List (PyVal × ℚ))
  | [] => some []
  | v :: vs =>
    match pyPctKey v with
    | Option.none => Option.none
    | some q => (pyKeysResolve vs).map fun ps => (v, q) :: ps

/-- `ranking_node` over checkpoint-loaded records: filter to positive key,
stable-sort descending, truncate. -/
def rankStagePyCore (items : List PyVal) : Option (List PyVal) :=
  (pyKeysResolve items).map fun pairs =>
    ((sortDescBy Prod.snd (pairs.filter fun p => decide (0 < p.2))).take TOP_N).map
      Prod.fst

/-- Escapes of the JSON renderer. -/
def jsonEscapeF : List Char → List Char
  | [] => []
  | c :: rest =>
    if c == cDQ then cBS :: cDQ :: jsonEscapeF rest
    else if c == cBS then cBS :: cBS :: jsonEscapeF rest
    else if c == Char.ofNat 10 then cBS :: 'n' :: jsonEscapeF rest
    else if c == Char.ofNat 13 then cBS :: 'r' :: jsonEscapeF rest
    else if c == Char.ofNat 9 then cBS :: 't' :: jsonEscapeF rest
    else c :: jsonEscapeF rest

/-- Fuelled JSON rendering of a value (`json.dump`'s serialisation; whitespace
layout is a fixed deterministic choice, which is all the idempotence claim
consumes). -/
def renderJsonF : ℕ → PyVal → String
  | 0, _ => ""
  | fuel + 1, v =>
    match v with
    | PyVal.str s => String.mk (cDQ :: jsonEscapeF s.data ++ [cDQ])
    | PyVal.num q => renderNum q
    | PyVal.bool b => if b then "true" else "false"
    | PyVal.noneV => "null"
    | PyVal.list xs => "[" ++ commaJoin (xs.map (renderJsonF fuel)) ++ "]"
    | PyVal.dict kvs =>
        String.mk [cLB] ++
          commaJoin (kvs.map fun p => renderJsonF fuel p.1 ++ ": " ++ renderJsonF fuel p.2) ++
          String.mk [cRB]

/-- JSON rendering with CPython-recursion-limit fuel. -/
def renderJson (v : PyVal) : String :=
  renderJsonF 1000 v

/-- The checkpoint files `run_stage_rank` touches: it reads
`analysis_results.json` and writes only `ranked_results.json`. -/
structure FileStore where
  analysisFile : String
  rankedFile : Option String
  deriving DecidableEq

/-- The byte-level rank stage: `json.load` the analysis artifact (failure
raises), run the ranking over the loaded records, `json.dump` the ranked
artifact.  A non-list artifact follows `state.get("analysis_results") or []`:
falsy loads rank an empty list, truthy non-list loads raise when iterated. -/
def runStageRankBytes (artifact : String) : Option String :=
  match jsonLoads artifact.data with
  | Option.none => Option.none
  | some (PyVal.list items) =>
    (rankStagePyCore items).map fun ranked => renderJson (PyVal.list ranked)
  | some v =>
    if pyTruthy v then Option.none else some (renderJson (PyVal.list []))

/-- `run_stage_rank` over the checkpoint store: read the analysis artifact,
write the ranked artifact, leave the analysis artifact untouched. -/
def runStageRank (fs : FileStore) : Option FileStore :=
  (runStageRankBytes fs.analysisFile).map fun out =>
    { analysisFile := fs.analysisFile, rankedFile := some out }

/-- A sample analysis record carrying a given prediction. -/
def exR (q : ℚ) : AnalysisRecord :=
  ⟨"2026-01-01", "TICK", q, "why"⟩

/-- The spec's worked ranking example: predictions `[5, -1, 3, 0, 7, 2]`. -/
def c2Input : List AnalysisRecord :=
  [exR 5, exR (-1), exR 3, exR 0, exR 7, exR 2]

/-- A record list with no positive prediction, for the empty-output case. -/
def c2wInput : List AnalysisRecord :=
  [exR (-2), exR 0]

/-- The double-quoted extractor input: the target object embedded in prose
behind a leading code fence. -/
def c3TextDouble : String :=
  "Sure!\n```json\n\x7b\"predicted_change_pct\": 2.5, \"reason\": \"ok\"\x7d\n```"

/-- The same object with single-quoted keys and values. -/
def c3TextSingle : String :=
  "Sure!\n```json\n\x7b\x27predicted_change_pct\x27: 2.5, \x27reason\x27: \x27ok\x27\x7d\n```"

/-- The expected extraction result for both inputs. -/
def c3Expected : AnalysisRecord :=
  ⟨"2026-10-12", "AAPL", (5 : ℚ) / 2, "ok"⟩

/-- Generated text on which the extractor raises: a brace block that is
invalid JSON but a valid Python dict display with an unhashable (list) key. -/
def c4FailingText : String :=
  "\x7b[1]: 2\x7d"

/-- A successful market-data sub-record for `t`. -/
def goodPrices (t : String) : PricesRec :=
  { ticker := t, error := Option.none }

/-- A successful context sub-result. -/
def goodNews : NewsMacro :=
  { news := ["headline"], macroTexts := ["cpi print"] }

/-- C1 counterexample oracle: the market-data sub-fetch raises an exception
whose string form is empty (e.g. a bare `ConnectionError()` after retry
exhaustion). -/
def c1PriceO (_ : String) : Except String PricesRec :=
  Except.error ""

/-- Context oracle succeeding for every identifier. -/
def c1NewsO (_ : String) : Except String NewsMacro :=
  Except.ok goodNews

/-- Analysis oracle succeeding for every identifier. -/
def c1AnO (_ : String) : Except String (ℚ × String) :=
  Except.ok (1, "up")

/-- C1 witness oracle: the market-data sub-fetch for AAPL fails with a
descriptive (nonempty) message; the sibling succeeds. -/
def c1wPriceO (t : String) : Except String PricesRec :=
  if t == "AAPL" then Except.error "HTTPSConnectionPool: read timed out"
  else Except.ok (goodPrices t)

/-- The C1 witness batch. -/
def c1wTickers : List String :=
  ["AAPL", "MSFT"]

/-- The C5 gathered input: one identifier with usable market data. -/
def c5Gathered : List (String × Gathered) :=
  [("AAPL", { prices := goodPrices "AAPL", news := ["n"], macroTexts := ["m"] })]

/-- C5 counterexample oracle: the analysis unit of work faults for every
identifier. -/
def c5AnO (_ : String) : Except String (ℚ × String) :=
  Except.error "boom"

/-- C5 witness unit of work for the gather runner: AAPL's unit faults, the
sibling's succeeds. -/
def c5wUnit (t : String) : Except String Gathered :=
  if t == "AAPL" then Except.error "executor failure"
  else Except.ok { prices := goodPrices t, news := [], macroTexts := [] }

/-- Environment with a generation key but no search key. -/
def envNoTavily : Env :=
  { deepseekKey := some "sk-gen", tavilyKey := Option.none }

/-- Environment with a search key but no generation key. -/
def envNoDeepseek : Env :=
  { deepseekKey := Option.none, tavilyKey := some "tvly-key" }

/-- A Tavily collaborator that would succeed if it were reached. -/
def tavOracleW (_ : String) (_ : Bool) : NewsMacro :=
  goodNews

/-- A market-data oracle succeeding for every identifier. -/
def c6PriceO (t : String) : Except String PricesRec :=
  Except.ok (goodPrices t)

/-- C7 witness action: every attempt raises a retryable fault. -/
def c7Action (n : ℕ) : Attempt ℕ :=
  Attempt.raise ⟨PyExcKind.connectionError, "read timed out on attempt " ++ Nat.repr n⟩

/-- The C9 witness checkpoint artifact: one analysis record. -/
def c9Artifact : String :=
  "[\x7b\"date\": \"2026-10-11\", \"ticker\": \"AAPL\", \"predicted_change_pct\": 1.5, \"reason\": \"up\"\x7d]"

/-- The C9 witness store before the rank stage. -/
def c9fs0 : FileStore :=
  { analysisFile := c9Artifact, rankedFile := Option.none }

/-- The store after the first rank-stage run. -/
def c9fs1 : FileStore :=
  (runStageRank c9fs0).getD { analysisFile := "", rankedFile := Option.none }

/-- The store after re-running the rank stage. -/
def c9fs2 : FileStore :=
  (runStageRank c9fs1).getD { analysisFile := "", rankedFile := Option.none }

theorem perm_insertDesc {α : Type} (f : α → ℚ) (x : α) (l : List α) :
    (insertDesc f x l).Perm (x :: l) := by
  induction l with
  | nil => simp [insertDesc]
  | cons y ys ih =>
    by_cases h : f y < f x
    · simp [insertDesc, h]
    · simp only [insertDesc, if_neg h]
      exact (ih.cons y).trans (List.Perm.swap x y ys)

theorem pairwise_insertDesc {α : Type} (f : α → ℚ) (x : α) {l : List α}
    (h : l.Pairwise fun a b => f b ≤ f a) :
    (insertDesc f x l).Pairwise fun a b => f b ≤ f a := by
  induction l with
  | nil => simp [insertDesc]
  | cons y ys ih =>
    rcases List.pairwise_cons.1 h with ⟨hy, hys⟩
    by_cases hlt : f y < f x
    · simp only [insertDesc, if_pos hlt]
      refine List.pairwise_cons.2 ⟨?_, h⟩
      intro b hb
      rcases List.mem_cons.1 hb with rfl | hb
      · exact le_of_lt hlt
      · exact (hy b hb).trans (le_of_lt hlt)
    · simp only [insertDesc, if_neg hlt]
      refine List.pairwise_cons.2 ⟨?_, ih hys⟩
      intro b hb
      rcases List.mem_cons.1 ((perm_insertDesc f x ys).mem_iff.1 hb) with rfl | hb
      · exact le_of_not_lt hlt
      · exact hy b hb

theorem sortDescBy_perm_aux {α : Type} (f : α → ℚ) :
    ∀ (l acc : List α),
      (l.foldl (fun acc2 x => insertDesc f x acc2) acc).Perm (acc ++ l) := by
  intro l
  induction l with
  | nil => intro acc; simp
  | cons x xs ih =>
    intro acc
    refine (ih (insertDesc f x acc)).trans ?_
    refine ((perm_insertDesc f x acc).append_right xs).trans ?_
    exact List.perm_middle.symm

theorem sortDescBy_perm {α : Type} (f : α → ℚ) (l : List α) :
    (sortDescBy f l).Perm l := by
  simpa [sortDescBy] using sortDescBy_perm_aux f l []

theorem sortDescBy_pairwise_aux {α : Type} (f : α → ℚ) :
    ∀ (l acc : List α), (acc.Pairwise fun a b => f b ≤ f a) →
      (l.foldl (fun acc2 x => insertDesc f x acc2) acc).Pairwise fun a b => f b ≤ f a := by
  intro l
  induction l with
  | nil => intro acc h; simpa using h
  | cons x xs ih => intro acc h; exact ih _ (pairwise_insertDesc f x h)

theorem sortDescBy_pairwise {α : Type} (f : α → ℚ) (l : List α) :
    (sortDescBy f l).Pairwise fun a b => f b ≤ f a :=
  sortDescBy_pairwise_aux f l [] (by simp)

theorem dictLookup_upsert_self {β : Type} (k : String) (v : β) (d : List (String × β)) :
    dictLookup k (dictUpsert k v d) = some v := by
  induction d with
  | nil => simp [dictUpsert, dictLookup]
  | cons p rest ih =>
    rcases p with ⟨k1, v1⟩
    by_cases h : k1 = k
    · subst h; simp [dictUpsert, dictLookup]
    · simp [dictUpsert, dictLookup, h, ih]

theorem dictLookup_upsert_other {β : Type} {k k2 : String} (hne : k2 ≠ k) (v : β)
    (d : List (String × β)) :
    dictLookup k2 (dictUpsert k v d) = dictLookup k2 d := by
  induction d with
  | nil =>
    have hx : ¬(k = k2) := fun h2 => hne h2.symm
    simp [dictUpsert, dictLookup, hx]
  | cons p rest ih =>
    rcases p with ⟨k1, v1⟩
    by_cases h : k1 = k
    · subst h
      have hx : ¬(k1 = k2) := fun h2 => hne h2.symm
      simp [dictUpsert, dictLookup, hx]
    · by_cases h2 : k1 = k2
      · subst h2; simp [dictUpsert, dictLookup, h]
      · simp [dictUpsert, dictLookup, h, h2, ih]

theorem dictUpsert_forall {β : Type} {Q : String × β → Prop} {k : String} {v : β}
    {d : List (String × β)} (hq : Q (k, v)) (hd : ∀ p ∈ d, Q p) :
    ∀ p ∈ dictUpsert k v d, Q p := by
  induction d with
  | nil => simpa [dictUpsert] using hq
  | cons p0 rest ih =>
    rcases p0 with ⟨k1, v1⟩
    by_cases h : k1 = k
    · subst h
      simp only [dictUpsert, beq_self_eq_true, if_pos]
      intro p hp
      rcases List.mem_cons.1 hp with rfl | hp
      · exact hq
      · exact hd _ (List.mem_cons_of_mem _ hp)
    · simp only [dictUpsert, beq_iff_eq, if_neg h]
      intro p hp
      rcases List.mem_cons.1 hp with rfl | hp
      · exact hd _ (List.mem_cons_self _ _)
      · exact ih (fun q hq2 => hd q (List.mem_cons_of_mem _ hq2)) p hp

theorem dictOfPairs_forall_aux {β : Type} {Q : String × β → Prop} :
    ∀ (ps acc : List (String × β)), (∀ p ∈ ps, Q p) → (∀ p ∈ acc, Q p) →
      ∀ p ∈ ps.foldl (fun d q => dictUpsert q.1 q.2 d) acc, Q p := by
  intro ps
  induction ps with
  | nil => intro acc _ hacc; simpa using hacc
  | cons q qs ih =>
    intro acc hps hacc
    simp only [List.foldl_cons]
    exact ih _ (fun p hp => hps p (List.mem_cons_of_mem _ hp))
      (dictUpsert_forall (hps q (List.mem_cons_self _ _)) hacc)

theorem dictOfPairs_forall {β : Type} {Q : String × β → Prop} {ps : List (String × β)}
    (hps : ∀ p ∈ ps, Q p) : ∀ p ∈ dictOfPairs ps, Q p :=
  dictOfPairs_forall_aux ps [] hps (by simp)

theorem lookup_dictOfPairsMap_aux {β : Type} (f : String → β) :
    ∀ (ts : List String) (acc : List (String × β)) (t : String),
      (t ∈ ts ∨ dictLookup t acc = some (f t)) →
      dictLookup t ((ts.map fun u => (u, f u)).foldl (fun d q => dictUpsert q.1 q.2 d) acc) =
        some (f t) := by
  intro ts
  induction ts with
  | nil =>
    intro acc t h
    rcases h with h | h
    · cases h
    · simpa using h
  | cons x xs ih =>
    intro acc t h
    simp only [List.map_cons, List.foldl_cons]
    apply ih
    rcases h with h | h
    · rcases List.mem_cons.1 h with rfl | hx
      · right; exact dictLookup_upsert_self t (f t) acc
      · left; exact hx
    · by_cases he : t = x
      · subst he; right; exact dictLookup_upsert_self t (f t) acc
      · right; rw [dictLookup_upsert_other he]; exact h

theorem gatherDataNode_lookup (tickers : List String)
    (priceO : String → Except String PricesRec) (newsO : String → Except String NewsMacro)
    {t : String} (ht : t ∈ tickers) :
    dictLookup t (gatherDataNode tickers priceO newsO) =
      some (fetchOneTickerSync priceO newsO t) :=
  lookup_dictOfPairsMap_aux (fetchOneTickerSync priceO newsO) tickers [] t (Or.inl ht)

theorem gatherDataNode_entries (tickers : List String)
    (priceO : String → Except String PricesRec) (newsO : String → Except String NewsMacro) :
    ∀ p ∈ gatherDataNode tickers priceO newsO,
      p.2 = fetchOneTickerSync priceO newsO p.1 := by
  refine dictOfPairs_forall ?_
  intro p hp
  rcases List.mem_map.1 hp with ⟨u, _, rfl⟩
  rfl

theorem lookup_dictOfPairs_none_aux {β : Type} :
    ∀ (ps acc : List (String × β)) (t : String), (∀ p ∈ ps, p.1 ≠ t) →
      dictLookup t acc = Option.none →
      dictLookup t (ps.foldl (fun d q => dictUpsert q.1 q.2 d) acc) = Option.none := by
  intro ps
  induction ps with
  | nil => intro acc t _ hacc; simpa using hacc
  | cons q qs ih =>
    intro acc t hps hacc
    simp only [List.foldl_cons]
    refine ih _ t (fun p hp => hps p (List.mem_cons_of_mem _ hp)) ?_
    rw [dictLookup_upsert_other (fun h => hps q (List.mem_cons_self _ _) h.symm)]
    exact hacc

theorem dictLookup_isSome_of_mem {β : Type} {d : List (String × β)} {t : String} {v : β}
    (h : (t, v) ∈ d) : (dictLookup t d).isSome = true := by
  induction d with
  | nil => cases h
  | cons p rest ih =>
    rcases p with ⟨k1, v1⟩
    by_cases hk : k1 = t
    · subst hk; simp [dictLookup]
    · rcases List.mem_cons.1 h with heq | hmem
      · cases heq; exact absurd rfl hk
      · simp [dictLookup, hk, ih hmem]

theorem analyzeOne_ticker_eq {anO : String → Except String (ℚ × String)}
    {today t : String} {d : Gathered} {r : AnalysisRecord}
    (h : analyzeOne anO today t d = some r) : r.ticker = t := by
  unfold analyzeOne at h
  by_cases hm : hasErrorMarker d.prices
  · simp [hm] at h
  · simp only [hm, Bool.false_eq_true, if_false] at h
    cases hao : anO t <;> rw [hao] at h <;> cases h <;> rfl

theorem mem_analystNode_iff {gathered : List (String × Gathered)}
    {anO : String → Except String (ℚ × String)} {today : String} {r : AnalysisRecord} :
    r ∈ analystNode gathered anO today ↔
      ∃ p, p ∈ gathered ∧ analyzeOne anO today p.1 p.2 = some r := by
  simp [analystNode, List.mem_filterMap]

theorem gatherRunner_lookup_ok_aux (unit : String → Except String Gathered) :
    ∀ (ts : List String) (acc : List (String × Gathered)) (t : String) (d : Gathered),
      unit t = Except.ok d →
      (t ∈ ts ∨ dictLookup t acc = some d) →
      dictLookup t ((ts.filterMap fun u =>
          match unit u with
          | Except.ok g => some (u, g)
          | Except.error _ => Option.none).foldl (fun d2 q => dictUpsert q.1 q.2 d2) acc) =
        some d := by
  intro ts
  induction ts with
  | nil =>
    intro acc t d _ h
    rcases h with h | h
    · cases h
    · simpa using h
  | cons x xs ih =>
    intro acc t d hok h
    rcases hux : unit x with g | e
    case error =>
      simp only [List.filterMap_cons, hux]
      refine ih acc t d hok ?_
      rcases h with h | h
      · rcases List.mem_cons.1 h with rfl | hx
        · rw [hok] at hux; cases hux
        · exact Or.inl hx
      · exact Or.inr h
    case ok =>
      simp only [List.filterMap_cons, hux, List.foldl_cons]
      refine ih _ t d hok ?_
      by_cases he : t = x
      · subst he
        rw [hok] at hux
        cases hux
        exact Or.inr (dictLookup_upsert_self t d acc)
      · rcases h with h | h
        · rcases List.mem_cons.1 h with rfl | hx
          · exact absurd rfl he
          · exact Or.inl hx
        · right; rw [dictLookup_upsert_other he]; exact h

/-- C1 (amended): if the market-data sub-fetch for identifier `t` fails with a
nonempty string form (as any descriptive exception after retry exhaustion
has), then `t`'s GatheredRecord carries a truthy error marker in its prices
sub-record, the analysis stage produces no AnalysisRecord for `t` (only a
skip), every identifier's gathered record — `t`'s siblings included — is the
sole function of its own fetch outcome, and (unconditionally) the identifiers
of `analysis_results` form a subset of the keys of `gathered_data`.  (The
original claim, with no proviso on the message, fails when `str(e)` is empty:
the stored `"error": ""` is falsy and the skip test does not fire — see the
counterexample.) -/
theorem c1_gather_error_isolation (tickers : List String)
    (priceO : String → Except String PricesRec) (newsO : String → Except String NewsMacro)
    (anO : String → Except String (ℚ × String)) (today t e : String)
    (ht : t ∈ tickers) (hfail : priceO t = Except.error e) (hne : e ≠ "") :
    hasErrorMarker (fetchOneTickerSync priceO newsO t).prices = true ∧
    dictLookup t (gatherDataNode tickers priceO newsO) =
      some (fetchOneTickerSync priceO newsO t) ∧
    (∀ r ∈ analystNode (gatherDataNode tickers priceO newsO) anO today, r.ticker ≠ t) ∧
    (∀ t2 ∈ tickers,
      dictLookup t2 (gatherDataNode tickers priceO newsO) =
        some (fetchOneTickerSync priceO newsO t2)) ∧
    (∀ (g : List (String × Gathered)) (r : AnalysisRecord),
      r ∈ analystNode g anO today → (dictLookup r.ticker g).isSome = true) := by
  have hmark : hasErrorMarker (fetchOneTickerSync priceO newsO t).prices = true := by
    unfold fetchOneTickerSync
    rw [hfail]
    cases hn : newsO t <;> simp [hasErrorMarker, hne]
  refine ⟨hmark, gatherDataNode_lookup tickers priceO newsO ht, ?_, ?_, ?_⟩
  · intro r hr
    rcases mem_analystNode_iff.1 hr with ⟨p, hp, hone⟩
    have hticker := analyzeOne_ticker_eq hone
    intro hteq
    have hpe : p.2 = fetchOneTickerSync priceO newsO p.1 :=
      gatherDataNode_entries tickers priceO newsO p hp
    rw [hticker] at hteq
    subst hteq
    rw [hpe] at hone
    unfold analyzeOne at hone
    rw [hmark] at hone
    simp at hone
  · intro t2 ht2
    exact gatherDataNode_lookup tickers priceO newsO ht2
  · intro g r hr
    rcases mem_analystNode_iff.1 hr with ⟨p, hp, hone⟩
    rw [analyzeOne_ticker_eq hone]
    rcases p with ⟨pt, pd⟩
    exact dictLookup_isSome_of_mem hp

/-- C1 counterexample: the market-data sub-fetch for AAPL fails with an
exception whose string form is empty (e.g. a bare `ConnectionError()`); the
gathered record then stores `"error": ""`, the falsy-marker skip test does not
fire, and the analysis stage DOES produce an AnalysisRecord for AAPL —
contradicting the claim that a failed sub-fetch always yields a skip. -/
theorem c1_counterexample :
    c1PriceO "AAPL" = Except.error "" ∧
    (analystNode (gatherDataNode ["AAPL"] c1PriceO c1NewsO) c1AnO "2026-10-12").map
        AnalysisRecord.ticker = ["AAPL"] :=
  ⟨rfl, rfl⟩

/-- C1 witness: the amended theorem applied to the two-ticker batch in which
AAPL's market-data fetch fails with a descriptive message. -/
theorem c1_witness :
    hasErrorMarker (fetchOneTickerSync c1wPriceO c1NewsO "AAPL").prices = true ∧
    dictLookup "AAPL" (gatherDataNode c1wTickers c1wPriceO c1NewsO) =
      some (fetchOneTickerSync c1wPriceO c1NewsO "AAPL") :=
  ⟨(c1_gather_error_isolation c1wTickers c1wPriceO c1NewsO c1AnO "2026-10-12" "AAPL"
      "HTTPSConnectionPool: read timed out" (by decide) rfl (by decide)).1,
   (c1_gather_error_isolation c1wTickers c1wPriceO c1NewsO c1AnO "2026-10-12" "AAPL"
      "HTTPSConnectionPool: read timed out" (by decide) rfl (by decide)).2.1⟩

/-- C2: the Ranker keeps exactly the records with positive prediction,
stable-sorted descending and truncated to `TOP_N = 5`: the worked example
`[5, -1, 3, 0, 7, 2] ↦ [7, 5, 3, 2]`; every output is a subset of the input of
size at most 5 consisting of positive-prediction records, sorted descending;
no qualifying record yields the empty list; and when at most 5 records
qualify, the output is exactly the qualifying records (as a permutation, in
sorted order). -/
theorem c2_ranker (rs : List AnalysisRecord) :
    (rankingList c2Input).map AnalysisRecord.predicted_change_pct = [7, 5, 3, 2] ∧
    (rankingList rs).length ≤ TOP_N ∧
    (∀ r ∈ rankingList rs, r ∈ rs ∧ 0 < r.predicted_change_pct) ∧
    (rankingList rs).Pairwise
      (fun a b => b.predicted_change_pct ≤ a.predicted_change_pct) ∧
    ((∀ r ∈ rs, ¬0 < r.predicted_change_pct) → rankingList rs = []) ∧
    ((rs.filter fun r => decide (0 < r.predicted_change_pct)).length ≤ TOP_N →
      (rankingList rs).Perm (rs.filter fun r => decide (0 < r.predicted_change_pct))) := by
  refine ⟨by decide, ?_, ?_, ?_, ?_, ?_⟩
  · exact (List.length_take_le _ _)
  · intro r hr
    have hr2 : r ∈ sortDescBy AnalysisRecord.predicted_change_pct
        (rs.filter fun r2 => decide (0 < r2.predicted_change_pct)) :=
      List.take_subset _ _ hr
    have hr3 := (sortDescBy_perm AnalysisRecord.predicted_change_pct _).mem_iff.1 hr2
    rcases List.mem_filter.1 hr3 with ⟨hmem, hpos⟩
    exact ⟨hmem, by simpa using hpos⟩
  · exact (sortDescBy_pairwise AnalysisRecord.predicted_change_pct _).sublist
      (List.take_sublist _ _)
  · intro h
    have hfil : (rs.filter fun r => decide (0 < r.predicted_change_pct)) = [] := by
      rw [List.filter_eq_nil_iff]
      intro a ha
      simpa using h a ha
    simp [rankingList, hfil, sortDescBy]
  · intro hlen
    have hperm := sortDescBy_perm AnalysisRecord.predicted_change_pct
      (rs.filter fun r => decide (0 < r.predicted_change_pct))
    have hlen2 : (sortDescBy AnalysisRecord.predicted_change_pct
        (rs.filter fun r => decide (0 < r.predicted_change_pct))).length ≤ TOP_N := by
      rw [hperm.length_eq]; exact hlen
    rw [rankingList, List.take_of_length_le hlen2]
    exact hperm

/-- C2 witness: the theorem applied to a batch with no positive prediction
forces the empty output. -/
theorem c2_witness : rankingList c2wInput = [] :=
  (c2_ranker c2wInput).2.2.2.2.1 (by decide)

/-- C3: the Structured-Output Extractor recovers
`{predicted_change_pct: 2.5, reason: "ok"}` both from the double-quoted object
embedded in prose behind a code fence (strict JSON on the extracted brace
block) and from the single-quoted variant (where the quote-repair pass leaves
the trailing value single-quoted, JSON fails again, and the Python-literal
pass recovers the identical record). -/
theorem c3_extractor_round_trip :
    parseLLMOutput c3TextDouble "AAPL" "2026-10-12" = Except.ok c3Expected ∧
    parseLLMOutput c3TextSingle "AAPL" "2026-10-12" = Except.ok c3Expected :=
  ⟨of_decide_eq_true (by with_unfolding_all rfl), of_decide_eq_true (by with_unfolding_all rfl)⟩

/-- C4: the extractor is NOT total — on text whose brace block is invalid JSON
but a syntactically valid Python dict display with an unhashable key
(`{[1]: 2}`), `ast.literal_eval` raises `TypeError`, which the surrounding
`except (ValueError, SyntaxError)` does not catch, so `_parse_llm_output`
raises instead of returning a fallback record. -/
theorem c4_extractor_raises :
    parseLLMOutput c4FailingText "TSLA" "2026-10-12" =
      Except.error (unhashMsg (PyVal.list [PyVal.num 1])) :=
  of_decide_eq_true (by with_unfolding_all rfl)

/-- C5 (amended): per-item fault isolation differs between the two batch
stages.  In the gather stage a faulted unit of work becomes a skip: the item
is absent from `gathered_data`, and a successful sibling keeps exactly its own
result.  In the analyze stage a faulted unit of work does NOT vanish: the
`except` branch returns a fallback record (`predicted_change_pct = 0.0`,
reason `"Error: …"`) which appears in `analysis_results`.  In both stages the
runner is a total function of the per-item outcomes — no item's exception
propagates to the caller — and each item's outcome is independent of its
siblings.  (The original claim, which asserts absence from the result set for
both stages, fails for the analyze stage — see the counterexample.) -/
theorem c5_batch_fault_isolation (tickers : List String)
    (unit : String → Except String Gathered) (gathered : List (String × Gathered))
    (anO : String → Except String (ℚ × String)) (today t : String) :
    (∀ e, unit t = Except.error e →
      dictLookup t (gatherRunner tickers unit) = Option.none) ∧
    (∀ d, t ∈ tickers → unit t = Except.ok d →
      dictLookup t (gatherRunner tickers unit) = some d) ∧
    (∀ d e, (t, d) ∈ gathered → hasErrorMarker d.prices = false →
      anO t = Except.error e →
      (⟨today, t, 0, "Error: " ++ e⟩ : AnalysisRecord) ∈ analystNode gathered anO today) := by
  refine ⟨?_, ?_, ?_⟩
  · intro e he
    refine lookup_dictOfPairs_none_aux _ [] t ?_ rfl
    intro p hp
    rcases List.mem_filterMap.1 hp with ⟨u, _, hu⟩
    rcases hu2 : unit u with e2 | g <;> rw [hu2] at hu
    · cases hu
    · cases hu
      intro hpt
      have hut : u = t := hpt
      rw [hut] at hu2
      rw [he] at hu2
      cases hu2
  · intro d hmem hok
    exact gatherRunner_lookup_ok_aux unit tickers [] t d hok (Or.inl hmem)
  · intro d e hmem hmark herr
    refine mem_analystNode_iff.2 ⟨(t, d), hmem, ?_⟩
    unfold analyzeOne
    rw [hmark, herr]
    simp

/-- C5 counterexample: AAPL has usable gathered data, its analysis unit of
work faults, and the stage result nonetheless CONTAINS an AAPL record (the
fallback error record) — the item is not absent from the result set as the
claim states. -/
theorem c5_counterexample :
    c5AnO "AAPL" = Except.error "boom" ∧
    (analystNode c5Gathered c5AnO "2026-10-12").map AnalysisRecord.ticker = ["AAPL"] :=
  ⟨rfl, rfl⟩

/-- C5 witness: the amended theorem on a concrete two-item gather batch with
one faulting unit, and on the analyze batch with a faulting unit. -/
theorem c5_witness :
    dictLookup "AAPL" (gatherRunner ["AAPL", "MSFT"] c5wUnit) = Option.none ∧
    dictLookup "MSFT" (gatherRunner ["AAPL", "MSFT"] c5wUnit) =
      some { prices := goodPrices "MSFT", news := [], macroTexts := [] } ∧
    (⟨"2026-10-12", "AAPL", 0, "Error: boom"⟩ : AnalysisRecord) ∈
      analystNode c5Gathered c5AnO "2026-10-12" :=
  ⟨(c5_batch_fault_isolation ["AAPL", "MSFT"] c5wUnit c5Gathered c5AnO "2026-10-12"
      "AAPL").1 "executor failure" rfl,
   (c5_batch_fault_isolation ["AAPL", "MSFT"] c5wUnit c5Gathered c5AnO "2026-10-12"
      "MSFT").2.1 _ (by decide) rfl,
   (c5_batch_fault_isolation ["AAPL", "MSFT"] c5wUnit c5Gathered c5AnO "2026-10-12"
      "AAPL").2.2 { prices := goodPrices "AAPL", news := ["n"], macroTexts := ["m"] }
      "boom" (by simp [c5Gathered]) rfl rfl⟩

/-- C6 (amended): only the generation key is validated eagerly — a missing
`DEEPSEEK_API_KEY` makes the analysis stage raise its descriptive
`ValueError` before any per-item analysis work (the outcome is independent of
the per-item oracle), provided the stage has work to do.  The search key is
NOT validated fatally: a missing `TAVILY_API_KEY` makes
`search_news_and_macro` return per-item error-marker lists and the run
continues.  (The original claim — both keys fail fast before any batch work —
fails for the search key, see the counterexample; note also that the
generation-key check runs only at the start of the analysis stage, after the
gather batch.) -/
theorem c6_config_validation (env : Env) (gathered : List (String × Gathered))
    (anO anO2 : String → Except String (ℚ × String)) (today : String)
    (oracle : String → Bool → NewsMacro) (t : String) (im : Bool) :
    (env.deepseekKey = Option.none → gathered ≠ [] →
      analystNodeRun env gathered anO today = Except.error deepseekMissingMsg) ∧
    (env.deepseekKey = Option.none →
      analystNodeRun env gathered anO today = analystNodeRun env gathered anO2 today) ∧
    (env.tavilyKey = Option.none →
      searchNewsAndMacro env oracle t im =
        { news := [tavilyErrMsg], macroTexts := [tavilyErrMsg] }) := by
  refine ⟨?_, ?_, ?_⟩
  · intro hkey hne
    unfold analystNodeRun
    rw [hkey]
    simp [hne]
  · intro hkey
    unfold analystNodeRun
    rw [hkey]
  · intro hkey
    unfold searchNewsAndMacro
    rw [hkey]

/-- C6 counterexample: with the search key missing, the gather batch is not
aborted — it runs to completion and produces a per-item gathered record whose
context lists carry the degraded error markers, refuting "a missing credential
raises a fatal error before any per-item batch work". -/
theorem c6_counterexample :
    gatherDataNode ["AAPL"] c6PriceO
        (fun t => Except.ok (searchNewsAndMacro envNoTavily tavOracleW t true)) =
      [("AAPL",
        { prices := goodPrices "AAPL", news := [tavilyErrMsg],
          macroTexts := [tavilyErrMsg] })] :=
  rfl

/-- C6 witness: the amended theorem applied to a missing generation key (the
stage aborts with the descriptive message) and to a missing search key (the
search degrades to markers). -/
theorem c6_witness :
    analystNodeRun envNoDeepseek c5Gathered c1AnO "2026-10-12" =
      Except.error deepseekMissingMsg ∧
    searchNewsAndMacro envNoTavily tavOracleW "AAPL" true =
      { news := [tavilyErrMsg], macroTexts := [tavilyErrMsg] } :=
  ⟨(c6_config_validation envNoDeepseek c5Gathered c1AnO c1AnO "2026-10-12" tavOracleW
      "AAPL" true).1 rfl (by simp [c5Gathered]),
   (c6_config_validation envNoTavily [] c1AnO c1AnO "2026-10-12" tavOracleW
      "AAPL" true).2.2 rfl⟩

theorem retryCall_char {α : Type} (action : ℕ → Attempt α) :
    (∃ a1, action 1 = Attempt.ok a1 ∧ retryCall action = ⟨1, [], Attempt.ok a1⟩) ∨
    (∃ e1, action 1 = Attempt.raise e1 ∧ isRetryableExc e1 = false ∧
      retryCall action = ⟨1, [], Attempt.raise e1⟩) ∨
    (∃ e1 a2, action 1 = Attempt.raise e1 ∧ isRetryableExc e1 = true ∧
      action 2 = Attempt.ok a2 ∧
      retryCall action = ⟨2, [waitExpo 1], Attempt.ok a2⟩) ∨
    (∃ e1 e2, action 1 = Attempt.raise e1 ∧ isRetryableExc e1 = true ∧
      action 2 = Attempt.raise e2 ∧ isRetryableExc e2 = false ∧
      retryCall action = ⟨2, [waitExpo 1], Attempt.raise e2⟩) ∨
    (∃ e1 e2 a3, action 1 = Attempt.raise e1 ∧ isRetryableExc e1 = true ∧
      action 2 = Attempt.raise e2 ∧ isRetryableExc e2 = true ∧
      action 3 = Attempt.ok a3 ∧
      retryCall action = ⟨3, [waitExpo 1, waitExpo 2], Attempt.ok a3⟩) ∨
    (∃ e1 e2 e3, action 1 = Attempt.raise e1 ∧ isRetryableExc e1 = true ∧
      action 2 = Attempt.raise e2 ∧ isRetryableExc e2 = true ∧
      action 3 = Attempt.raise e3 ∧
      retryCall action = ⟨3, [waitExpo 1, waitExpo 2], Attempt.raise e3⟩) := by
  rcases h1 : action 1 with a1 | e1
  · exact Or.inl ⟨a1, rfl, by simp [retryCall, retryGo, MAX_RETRIES, h1]⟩
  · cases hr1 : isRetryableExc e1
    · exact Or.inr (Or.inl ⟨e1, rfl, hr1,
        by simp [retryCall, retryGo, MAX_RETRIES, h1, hr1]⟩)
    · rcases h2 : action 2 with a2 | e2
      · exact Or.inr (Or.inr (Or.inl ⟨e1, a2, rfl, hr1, rfl,
          by simp [retryCall, retryGo, MAX_RETRIES, h1, hr1, h2]⟩))
      · cases hr2 : isRetryableExc e2
        · exact Or.inr (Or.inr (Or.inr (Or.inl ⟨e1, e2, rfl, hr1, rfl, hr2,
            by simp [retryCall, retryGo, MAX_RETRIES, h1, hr1, h2, hr2]⟩)))
        · rcases h3 : action 3 with a3 | e3
          · exact Or.inr (Or.inr (Or.inr (Or.inr (Or.inl ⟨e1, e2, a3, rfl, hr1, rfl, hr2, rfl,
              by simp [retryCall, retryGo, MAX_RETRIES, h1, hr1, h2, hr2, h3]⟩))))
          · cases hr3 : isRetryableExc e3
            · exact Or.inr (Or.inr (Or.inr (Or.inr (Or.inr
                ⟨e1, e2, e3, rfl, hr1, rfl, hr2, rfl,
                  by simp [retryCall, retryGo, MAX_RETRIES, h1, hr1, h2, hr2, h3, hr3]⟩))))
            · exact Or.inr (Or.inr (Or.inr (Or.inr (Or.inr
                ⟨e1, e2, e3, rfl, hr1, rfl, hr2, rfl,
                  by simp [retryCall, retryGo, MAX_RETRIES, h1, hr1, h2, hr2, h3, hr3]⟩))))

/-- C7: the Retry Policy (`@retry(stop=stop_after_attempt(3),
wait=wait_exponential(multiplier=1, min=2, max=10),
retry=retry_if_exception_type((ConnectionError, TimeoutError, OSError)),
reraise=True)`) makes at most 3 attempts; the waits slept are exactly
`waitExpo 1, waitExpo 2, …` for the attempts made, with `waitExpo 1 = 2` and
`waitExpo 2 = 2` (the min-clamp of 2 dominates both sleeps a 3-attempt call
can make; the unclamped doubling is visible from `waitExpo 3 = 4` onward) and
every wait clamped to `[2, 10]`; a non-transient fault on the first attempt is
re-raised at once with no retry; three transient faults exhaust the attempts,
sleeping 2 then 2, and re-raise the LAST fault; and a successful outcome is
the value of the attempt that produced it. -/
theorem c7_retry_policy {α : Type} (action : ℕ → Attempt α) :
    (retryCall action).attemptsMade ≤ MAX_RETRIES ∧
    (retryCall action).waits =
      (List.range ((retryCall action).attemptsMade - 1)).map (fun i => waitExpo (i + 1)) ∧
    waitExpo 1 = 2 ∧
    waitExpo 2 = 2 ∧
    waitExpo 3 = 4 ∧
    (∀ k, 2 ≤ waitExpo k ∧ waitExpo k ≤ 10) ∧
    (∀ e, action 1 = Attempt.raise e → isRetryableExc e = false →
      retryCall action = ⟨1, [], Attempt.raise e⟩) ∧
    (∀ e1 e2 e3, action 1 = Attempt.raise e1 → action 2 = Attempt.raise e2 →
      action 3 = Attempt.raise e3 → isRetryableExc e1 = true → isRetryableExc e2 = true →
      retryCall action = ⟨3, [2, 2], Attempt.raise e3⟩) ∧
    (∀ a, (retryCall action).result = Attempt.ok a →
      action (retryCall action).attemptsMade = Attempt.ok a) := by
  have hw1 : waitExpo 1 = 2 := by norm_num [waitExpo, min_def, max_def]
  have hw2 : waitExpo 2 = 2 := by norm_num [waitExpo, min_def, max_def]
  have hw3 : waitExpo 3 = 4 := by norm_num [waitExpo, min_def, max_def]
  have hrange : List.range 2 = [0, 1] := rfl
  have hrange1 : List.range 1 = [0] := rfl
  refine ⟨?_, ?_, hw1, hw2, hw3, ?_, ?_, ?_, ?_⟩
  · rcases retryCall_char action with ⟨a1, h1, hc⟩ | ⟨e1, h1, hr1, hc⟩ |
      ⟨e1, a2, h1, hr1, h2, hc⟩ | ⟨e1, e2, h1, hr1, h2, hr2, hc⟩ |
      ⟨e1, e2, a3, h1, hr1, h2, hr2, h3, hc⟩ | ⟨e1, e2, e3, h1, hr1, h2, hr2, h3, hc⟩ <;>
    rw [hc] <;> simp [MAX_RETRIES]
  · rcases retryCall_char action with ⟨a1, h1, hc⟩ | ⟨e1, h1, hr1, hc⟩ |
      ⟨e1, a2, h1, hr1, h2, hc⟩ | ⟨e1, e2, h1, hr1, h2, hr2, hc⟩ |
      ⟨e1, e2, a3, h1, hr1, h2, hr2, h3, hc⟩ | ⟨e1, e2, e3, h1, hr1, h2, hr2, h3, hc⟩ <;>
    rw [hc] <;> simp [hrange, hrange1]
  · intro k
    exact ⟨le_max_left _ _, max_le (by norm_num) (min_le_right _ _)⟩
  · intro e he hne
    rcases retryCall_char action with ⟨a1, h1, hc⟩ | ⟨e1, h1, hr1, hc⟩ |
      ⟨e1, a2, h1, hr1, h2, hc⟩ | ⟨e1, e2, h1, hr1, h2, hr2, hc⟩ |
      ⟨e1, e2, a3, h1, hr1, h2, hr2, h3, hc⟩ | ⟨e1, e2, e3, h1, hr1, h2, hr2, h3, hc⟩ <;>
      rw [he] at h1 <;> cases h1 <;> first
        | exact hc
        | (rw [hne] at hr1; cases hr1)
  · intro e1 e2 e3 h1e h2e h3e hr1e hr2e
    rcases retryCall_char action with ⟨a1, h1, hc⟩ | ⟨f1, h1, hr1, hc⟩ |
      ⟨f1, a2, h1, hr1, h2, hc⟩ | ⟨f1, f2, h1, hr1, h2, hr2, hc⟩ |
      ⟨f1, f2, a3, h1, hr1, h2, hr2, h3, hc⟩ | ⟨f1, f2, f3, h1, hr1, h2, hr2, h3, hc⟩
    · rw [h1e] at h1; cases h1
    · rw [h1e] at h1; cases h1; rw [hr1e] at hr1; cases hr1
    · rw [h2e] at h2; cases h2
    · rw [h2e] at h2; cases h2; rw [hr2e] at hr2; cases hr2
    · rw [h3e] at h3; cases h3
    · rw [h3e] at h3
      cases h3
      rw [hc, hw1, hw2]
  · intro a ha
    rcases retryCall_char action with ⟨a1, h1, hc⟩ | ⟨e1, h1, hr1, hc⟩ |
      ⟨e1, a2, h1, hr1, h2, hc⟩ | ⟨e1, e2, h1, hr1, h2, hr2, hc⟩ |
      ⟨e1, e2, a3, h1, hr1, h2, hr2, h3, hc⟩ | ⟨e1, e2, e3, h1, hr1, h2, hr2, h3, hc⟩ <;>
      rw [hc] at ha ⊢ <;> simp at ha ⊢ <;> rw [← ha] <;> assumption

/-- C7 witness: a unit of work that raises a transient `ConnectionError` on
every attempt makes exactly 3 attempts, sleeps 2 then 2 (both sleeps held at
the minimum of the clamped exponential), and re-raises the last fault. -/
theorem c7_witness :
    retryCall c7Action =
      ⟨3, [2, 2],
        Attempt.raise ⟨PyExcKind.connectionError, "read timed out on attempt 3"⟩⟩ :=
  (c7_retry_policy c7Action).2.2.2.2.2.2.2.1
    ⟨PyExcKind.connectionError, "read timed out on attempt 1"⟩
    ⟨PyExcKind.connectionError, "read timed out on attempt 2"⟩
    ⟨PyExcKind.connectionError, "read timed out on attempt 3"⟩
    rfl rfl rfl rfl rfl

theorem inflightCount_initTasks (tickers : List String) :
    inflightCount (initTasks tickers) = 0 := by
  induction tickers with
  | nil => rfl
  | cons t ts ih =>
    simp only [initTasks, List.map_cons, inflightCount, List.countP_cons] at ih ⊢
    simp [isInflight, ih]

/-- C8: in every reachable interleaving of a gather batch — of any size,
including 0, 1, `CONCURRENCY_LIMIT` and beyond — the number of simultaneously
in-flight per-item fetches never exceeds `CONCURRENCY_LIMIT = 5`: starting a
fetch requires acquiring one of the 5 semaphore permits, which is only
possible while fewer than 5 are held. -/
theorem c8_concurrency_ceiling (tickers : List String) (s : List TaskPhase)
    (h : GatherReach (initTasks tickers) s) :
    inflightCount s ≤ CONCURRENCY_LIMIT := by
  induction h with
  | refl => rw [inflightCount_initTasks]; exact Nat.zero_le _
  | step hr hstep ih =>
    cases hstep with
    | start l r hlt =>
      simp [inflightCount, List.countP_append, List.countP_cons, isInflight] at hlt ⊢
      omega
    | finish l r =>
      simp [inflightCount, List.countP_append, List.countP_cons, isInflight] at ih ⊢
      omega

/-- C8 witness: the ceiling theorem applied to the reachable state of a
two-item batch in which the first task has acquired a permit. -/
theorem c8_witness :
    inflightCount [TaskPhase.inflight, TaskPhase.pending] ≤ CONCURRENCY_LIMIT :=
  c8_concurrency_ceiling ["AAPL", "MSFT"] [TaskPhase.inflight, TaskPhase.pending]
    (GatherReach.step GatherReach.refl
      (GatherStep.start [] [TaskPhase.pending] (by decide)))

/-- C9: re-running the Ranker stage from an unchanged analysis-results
checkpoint artifact yields a byte-identical ranked artifact: the stage never
writes its input artifact, and its output bytes are a pure function of that
artifact's bytes. -/
theorem c9_rank_stage_idempotent (fs fs1 fs2 : FileStore)
    (h1 : runStageRank fs = some fs1) (h2 : runStageRank fs1 = some fs2) :
    fs1.analysisFile = fs.analysisFile ∧ fs2.rankedFile = fs1.rankedFile := by
  unfold runStageRank at h1 h2
  cases hb : runStageRankBytes fs.analysisFile with
  | none => rw [hb] at h1; cases h1
  | some out =>
    rw [hb] at h1
    cases h1
    refine ⟨rfl, ?_⟩
    simp only at h2
    rw [hb] at h2
    cases h2
    rfl

/-- C9 witness: the theorem applied to a concrete one-record artifact; both
runs produce the same ranked bytes and leave the input artifact alone. -/
theorem c9_witness :
    c9fs1.analysisFile = c9fs0.analysisFile ∧ c9fs2.rankedFile = c9fs1.rankedFile :=
  c9_rank_stage_idempotent c9fs0 c9fs1 c9fs2
    (of_decide_eq_true (by with_unfolding_all rfl))
    (of_decide_eq_true (by with_unfolding_all rfl))

/-- C10: `ranking_node` leaves its input untouched — its returned update
carries only the `ranked_results` key, so after the merge the state's
`analysis_results` (and `tickers`) are exactly the lists that went in, and the
ranked list is built from a fresh filtered copy of the input records. -/
theorem c10_ranker_frame (s : AgentState) :
    (applyRankingUpdate s (ranking_node s)).analysis_results = s.analysis_results ∧
    (applyRankingUpdate s (ranking_node s)).tickers = s.tickers ∧
    (applyRankingUpdate s (ranking_node s)).ranked_results =
      rankingList s.analysis_results :=
  ⟨rfl, rfl, rfl⟩
